import Mathlib

/-!
Verification of pyowm/utils/measurables.py.

The module is a set of unit-conversion functions over flat dictionaries of
named measurement values.  We embed it shallowly:

* Python numbers are modelled as exact rationals (ℚ).  The decimal literals
  of the source (273.15, 2.23694, ...) are read as the exact rationals they
  denote.
* A Python dict is modelled as an association list `List (String × α)` in
  insertion order; `d.items()` iterates it front to back and a dict
  comprehension or result-building loop maps over it.
* `None` is modelled as `Option.none`, so a dict whose values may be null
  carries `Option ℚ` values.
* A function that can raise returns `Except PyErr _`; `PyErr` distinguishes
  the `ValueError`s raised explicitly by the source from the `TypeError`
  Python raises when `None` meets an arithmetic operator or comparison.
* `float("{0:.2f}".format(x))` and `round(x, 2)` both round to 2 decimal
  places; we model both by `round2` (ties, which differ between float
  formatting and `Rat` rounding, play no role in any claim below).
-/

namespace Measurables

/-- Python errors observable from this module: `ValueError msg` for the
errors raised explicitly by the source, `typeError` for the `TypeError`
Python raises when `None` is compared or multiplied. -/
inductive PyErr where
  | valueError (msg : String)
  | typeError
  deriving DecidableEq, Repr

/-- A Python value that is either a number or `None`. -/
abbrev PyVal := Option ℚ

/-- A Python dict with numeric values: association list in insertion order. -/
abbrev NumDict := List (String × ℚ)

/-- A Python dict whose values may be `None`. -/
abbrev OptDict := List (String × PyVal)

/-- A Python dict whose values may be `None` (used for the temperature
dicts handed to `kelvin_dict_to`, which Python never inspects in the
`'kelvin'` branch). -/
abbrev KDict := List (String × PyVal)

-- Temperature conversion constants
def KELVIN_OFFSET : ℚ := 273.15
def FAHRENHEIT_OFFSET : ℚ := 32.0
def FAHRENHEIT_DEGREE_SCALE : ℚ := 1.8

-- Wind speed conversion constants
def MILES_PER_HOUR_FOR_ONE_METER_PER_SEC : ℚ := 2.23694
def KM_PER_HOUR_FOR_ONE_METER_PER_SEC : ℚ := 3.6
def KNOTS_FOR_ONE_METER_PER_SEC : ℚ := 1.94384

-- Barometric conversion constants
def HPA_FOR_ONE_INHG : ℚ := 33.8639

-- Visibility distance conversion constants
def MILE_FOR_ONE_METER : ℚ := 0.000621371
def KMS_FOR_ONE_METER : ℚ := 0.001

/-- Rounding to 2 decimal places, the model of both
`float("{0:.2f}".format(x))` and `round(x, 2)` of the source. -/
def round2 (q : ℚ) : ℚ := (round (q * 100) : ℚ) / 100

/-- Message of the ValueError raised for negative temperatures
(`__name__ + ": negative temperature values not allowed"`). -/
def negativeTemperatureMsg : String :=
  "pyowm.utils.measurables: negative temperature values not allowed"

/-- Message of the ValueError raised by `kelvin_dict_to` for an unknown
target unit. -/
def invalidTemperatureUnitMsg : String :=
  "Invalid value for target temperature conversion unit"

/-- Message of the ValueError raised by `visibility_dict_to` for an unknown
target unit. -/
def invalidVisibilityUnitMsg : String :=
  "Invalid value for target visibility unit"

/-- `kelvin_to_celsius(kelvintemp)`.  The source first evaluates
`kelvintemp < 0`: on `None` that comparison raises `TypeError`, which is the
`none` case; on a negative number it raises the ValueError; otherwise it
returns `kelvintemp - KELVIN_OFFSET` rounded to 2 decimal places. -/
def kelvin_to_celsius : PyVal → Except PyErr ℚ
  | none => .error .typeError
  | some kelvintemp =>
      if kelvintemp < 0 then
        .error (.valueError negativeTemperatureMsg)
      else
        .ok (round2 (kelvintemp - KELVIN_OFFSET))

/-- `kelvin_to_fahrenheit(kelvintemp)`: same guard as `kelvin_to_celsius`,
then `(kelvintemp - KELVIN_OFFSET) * FAHRENHEIT_DEGREE_SCALE +
FAHRENHEIT_OFFSET` rounded to 2 decimal places. -/
def kelvin_to_fahrenheit : PyVal → Except PyErr ℚ
  | none => .error .typeError
  | some kelvintemp =>
      if kelvintemp < 0 then
        .error (.valueError negativeTemperatureMsg)
      else
        .ok (round2 ((kelvintemp - KELVIN_OFFSET) * FAHRENHEIT_DEGREE_SCALE
              + FAHRENHEIT_OFFSET))

/-- The dict comprehension `{key: f(d[key]) for key in d}`: entries are
converted front to back and the first raised error propagates, with no
result dict produced. -/
def dictComprehension (f : PyVal → Except PyErr ℚ) :
    KDict → Except PyErr KDict
  | [] => .ok []
  | kv :: rest =>
    match f kv.2 with
    | .error e => .error e
    | .ok v =>
      match dictComprehension f rest with
      | .error e => .error e
      | .ok tail => .ok ((kv.1, some v) :: tail)

/-- `kelvin_dict_to(d, target_temperature_unit)`: returns `d` itself for
`'kelvin'`, converts every value through the scalar function for
`'celsius'`/`'fahrenheit'`, and raises a ValueError otherwise. -/
def kelvin_dict_to (d : KDict) (target_temperature_unit : String) :
    Except PyErr KDict :=
  if target_temperature_unit = "kelvin" then
    .ok d
  else if target_temperature_unit = "celsius" then
    dictComprehension kelvin_to_celsius d
  else if target_temperature_unit = "fahrenheit" then
    dictComprehension kelvin_to_fahrenheit d
  else
    .error (.valueError invalidTemperatureUnitMsg)

/-- `metric_wind_dict_to_imperial(d)`: every value except the one under
`'deg'` is multiplied by `MILES_PER_HOUR_FOR_ONE_METER_PER_SEC`; `'deg'`
passes through. -/
def metric_wind_dict_to_imperial (d : NumDict) : NumDict :=
  d.map fun kv =>
    if kv.1 ≠ "deg" then
      (kv.1, kv.2 * MILES_PER_HOUR_FOR_ONE_METER_PER_SEC)
    else
      kv

/-- `metric_wind_dict_to_km_h(d)`: multiply every non-`'deg'` value by
`KM_PER_HOUR_FOR_ONE_METER_PER_SEC`. -/
def metric_wind_dict_to_km_h (d : NumDict) : NumDict :=
  d.map fun kv =>
    if kv.1 ≠ "deg" then
      (kv.1, kv.2 * KM_PER_HOUR_FOR_ONE_METER_PER_SEC)
    else
      kv

/-- `metric_wind_dict_to_knots(d)`: multiply every non-`'deg'` value by
`KNOTS_FOR_ONE_METER_PER_SEC`. -/
def metric_wind_dict_to_knots (d : NumDict) : NumDict :=
  d.map fun kv =>
    if kv.1 ≠ "deg" then
      (kv.1, kv.2 * KNOTS_FOR_ONE_METER_PER_SEC)
    else
      kv

/-- The `bf` cascade from the loop body of `metric_wind_dict_to_beaufort`,
transcribed condition by condition from the `if`/`elif` chain. -/
def beaufort_bf (value : ℚ) : ℕ :=
  if value ≤ 0.2 then 0
  else if 0.2 < value ∧ value ≤ 1.5 then 1
  else if 1.5 < value ∧ value ≤ 3.3 then 2
  else if 3.3 < value ∧ value ≤ 5.4 then 3
  else if 5.4 < value ∧ value ≤ 7.9 then 4
  else if 7.9 < value ∧ value ≤ 10.7 then 5
  else if 10.7 < value ∧ value ≤ 13.8 then 6
  else if 13.8 < value ∧ value ≤ 17.1 then 7
  else if 17.1 < value ∧ value ≤ 20.7 then 8
  else if 20.7 < value ∧ value ≤ 24.4 then 9
  else if 24.4 < value ∧ value ≤ 28.4 then 10
  else if 28.4 < value ∧ value ≤ 32.6 then 11
  else 12

/-- `metric_wind_dict_to_beaufort(d)`: every non-`'deg'` value is replaced
by its Beaufort level `bf` (a Python int, embedded into the numeric dict by
the cast ℕ → ℚ); `'deg'` passes through. -/
def metric_wind_dict_to_beaufort (d : NumDict) : NumDict :=
  d.map fun kv =>
    if kv.1 ≠ "deg" then
      (kv.1, (beaufort_bf kv.2 : ℚ))
    else
      kv

/-- `metric_pressure_dict_to_inhg(d)`: entries whose value is `None` are
skipped (`continue`), the others are divided by `HPA_FOR_ONE_INHG` and
rounded to 2 decimal places. -/
def metric_pressure_dict_to_inhg (d : OptDict) : NumDict :=
  d.filterMap fun kv =>
    match kv.2 with
    | none => none
    | some value => some (kv.1, round2 (value / HPA_FOR_ONE_INHG))

/-- `visibility_dict_to(d, target_visibility_unit='miles')`: picks the
conversion constant from the unit string (raising a ValueError for any
other unit, before touching `d`), then skips `None` values and multiplies
the rest by the constant, rounding to 2 decimal places. -/
def visibility_dict_to (d : OptDict)
    (target_visibility_unit : String := "miles") : Except PyErr NumDict :=
  if target_visibility_unit = "miles" then
    .ok (d.filterMap fun kv =>
      match kv.2 with
      | none => none
      | some value => some (kv.1, round2 (value * MILE_FOR_ONE_METER)))
  else if target_visibility_unit = "kms" then
    .ok (d.filterMap fun kv =>
      match kv.2 with
      | none => none
      | some value => some (kv.1, round2 (value * KMS_FOR_ONE_METER)))
  else
    .error (.valueError invalidVisibilityUnitMsg)

/-! ### An operational model of the dict-building loops

Each dict-returning conversion of the source builds its output with
`result = dict()` followed by `result[key] = ...` assignments in a loop
over `d.items()`.  To verify that none of them mutates its input dict, the
same loops are rendered once more over an explicit store of dict objects:
a dict is passed by reference (an index into the store) and item
assignment mutates the store, as in Python.  The pure definitions above
are then proved to be the value these loops leave in the freshly allocated
result dict, while the input dict is left untouched. -/

/-- A store of Python dict objects; an index into `dicts` is an object
reference. -/
structure Heap (α : Type) where
  dicts : List (List (String × α))

/-- Dereference a dict. -/
def Heap.get {α : Type} (h : Heap α) (r : ℕ) : List (String × α) :=
  h.dicts.getD r []

/-- Replace the dict object at a reference. -/
def Heap.set {α : Type} (h : Heap α) (r : ℕ) (d : List (String × α)) :
    Heap α :=
  ⟨h.dicts.set r d⟩

/-- `result = dict()`: allocate a fresh empty dict and return its
reference. -/
def Heap.alloc {α : Type} (h : Heap α) : Heap α × ℕ :=
  (⟨h.dicts ++ [[]]⟩, h.dicts.length)

/-- Python `d[key] = v` on an association list: overwrite in place when the
key is present, append otherwise. -/
def assocSet {α : Type} (d : List (String × α)) (k : String) (v : α) :
    List (String × α) :=
  if k ∈ d.map Prod.fst then
    d.map fun kv => if kv.1 = k then (k, v) else kv
  else
    d ++ [(k, v)]

/-- `h[r][k] = v`: item assignment on the dict object at reference `r`. -/
def Heap.setItem {α : Type} (h : Heap α) (r : ℕ) (k : String) (v : α) :
    Heap α :=
  h.set r (assocSet (h.get r) k v)

/-- The body of a result-building loop: for each item of the input, `step`
either raises (`.error`), skips the item (`continue`), or assigns one key
of the result dict. -/
def buildLoopGo {α : Type}
    (step : String → α → Except PyErr (Option (String × α))) (result : ℕ) :
    List (String × α) → Heap α → Heap α × Except PyErr ℕ
  | [], h => (h, .ok result)
  | kv :: rest, h =>
    match step kv.1 kv.2 with
    | .error e => (h, .error e)
    | .ok none => buildLoopGo step result rest h
    | .ok (some kv2) => buildLoopGo step result rest (h.setItem result kv2.1 kv2.2)

/-- A whole result-building loop: allocate `result = dict()`, then run the
loop over the items of the dict at reference `r`. -/
def buildLoop {α : Type}
    (step : String → α → Except PyErr (Option (String × α)))
    (h : Heap α) (r : ℕ) : Heap α × Except PyErr ℕ :=
  buildLoopGo step (Heap.alloc h).2 ((Heap.alloc h).1.get r) (Heap.alloc h).1

/-- The loop of `metric_wind_dict_to_imperial` over the store. -/
def metric_wind_dict_to_imperial_impl (h : Heap ℚ) (r : ℕ) :
    Heap ℚ × Except PyErr ℕ :=
  buildLoop
    (fun key value =>
      .ok (some (if key ≠ "deg" then
        (key, value * MILES_PER_HOUR_FOR_ONE_METER_PER_SEC)
      else
        (key, value)))) h r

/-- The loop of `metric_wind_dict_to_km_h` over the store. -/
def metric_wind_dict_to_km_h_impl (h : Heap ℚ) (r : ℕ) :
    Heap ℚ × Except PyErr ℕ :=
  buildLoop
    (fun key value =>
      .ok (some (if key ≠ "deg" then
        (key, value * KM_PER_HOUR_FOR_ONE_METER_PER_SEC)
      else
        (key, value)))) h r

/-- The loop of `metric_wind_dict_to_knots` over the store. -/
def metric_wind_dict_to_knots_impl (h : Heap ℚ) (r : ℕ) :
    Heap ℚ × Except PyErr ℕ :=
  buildLoop
    (fun key value =>
      .ok (some (if key ≠ "deg" then
        (key, value * KNOTS_FOR_ONE_METER_PER_SEC)
      else
        (key, value)))) h r

/-- The loop of `metric_wind_dict_to_beaufort` over the store. -/
def metric_wind_dict_to_beaufort_impl (h : Heap ℚ) (r : ℕ) :
    Heap ℚ × Except PyErr ℕ :=
  buildLoop
    (fun key value =>
      .ok (some (if key ≠ "deg" then
        (key, (beaufort_bf value : ℚ))
      else
        (key, value)))) h r

/-- The loop of `metric_pressure_dict_to_inhg` over the store. -/
def metric_pressure_dict_to_inhg_impl (h : Heap PyVal) (r : ℕ) :
    Heap PyVal × Except PyErr ℕ :=
  buildLoop
    (fun key value =>
      match value with
      | none => .ok none
      | some v => .ok (some (key, some (round2 (v / HPA_FOR_ONE_INHG))))) h r

/-- The loop of `visibility_dict_to` over the store (the source allocates
`result = dict()` before checking the unit, hence the `Heap.alloc` in the
error branch). -/
def visibility_dict_to_impl (h : Heap PyVal) (r : ℕ)
    (target_visibility_unit : String := "miles") :
    Heap PyVal × Except PyErr ℕ :=
  if target_visibility_unit = "miles" then
    buildLoop
      (fun key value =>
        match value with
        | none => .ok none
        | some v => .ok (some (key, some (round2 (v * MILE_FOR_ONE_METER))))) h r
  else if target_visibility_unit = "kms" then
    buildLoop
      (fun key value =>
        match value with
        | none => .ok none
        | some v => .ok (some (key, some (round2 (v * KMS_FOR_ONE_METER))))) h r
  else
    ((Heap.alloc h).1, .error (.valueError invalidVisibilityUnitMsg))

/-- `kelvin_dict_to` over the store: the kelvin branch hands back the very
input reference with the store untouched; the comprehension branches build
a fresh dict. -/
def kelvin_dict_to_impl (h : Heap PyVal) (r : ℕ)
    (target_temperature_unit : String) : Heap PyVal × Except PyErr ℕ :=
  if target_temperature_unit = "kelvin" then
    (h, .ok r)
  else if target_temperature_unit = "celsius" then
    buildLoop
      (fun key value =>
        (kelvin_to_celsius value).map fun c => some (key, some c)) h r
  else if target_temperature_unit = "fahrenheit" then
    buildLoop
      (fun key value =>
        (kelvin_to_fahrenheit value).map fun c => some (key, some c)) h r
  else
    (h, .error (.valueError invalidTemperatureUnitMsg))

/-! ### The Beaufort table as the spec states it

For the refinement claim about `metric_wind_dict_to_beaufort`, the
following definitions follow the wording of the specification (the
13-interval table of inclusive upper bounds), to be compared with the
`if`/`elif` cascade `beaufort_bf` taken from the source. -/

/-- The spec's table: ordered rows of (inclusive upper bound, level),
levels 0 through 11; anything above the last bound is level 12. -/
def beaufortTable : List (ℚ × ℕ) :=
  [(0.2, 0), (1.5, 1), (3.3, 2), (5.4, 3), (7.9, 4), (10.7, 5), (13.8, 6),
   (17.1, 7), (20.7, 8), (24.4, 9), (28.4, 10), (32.6, 11)]

/-- Reading the spec's table: the first row whose inclusive upper bound is
at least the value gives the level (so a value exactly at a bound falls in
the lower interval), and a value above every bound gives 12. -/
def levelFromTable (value : ℚ) : List (ℚ × ℕ) → ℕ
  | [] => 12
  | row :: rest => if value ≤ row.1 then row.2 else levelFromTable value rest

/-- The Beaufort level of a wind speed per the spec's table. -/
def beaufortLevelSpec (value : ℚ) : ℕ := levelFromTable value beaufortTable

/-- The source's `bf` cascade computes exactly the spec's table lookup. -/
lemma beaufort_bf_eq_spec (v : ℚ) : beaufort_bf v = beaufortLevelSpec v := by
  unfold beaufort_bf beaufortLevelSpec beaufortTable
  rcases le_or_lt v 0.2 with h0 | h0
  · simp [levelFromTable, h0]
  rcases le_or_lt v 1.5 with h1 | h1
  · simp [levelFromTable, h0.not_le, h0, h1]
  rcases le_or_lt v 3.3 with h2 | h2
  · simp [levelFromTable, h0.not_le, h1.not_le, h1, h2]
  rcases le_or_lt v 5.4 with h3 | h3
  · simp [levelFromTable, h0.not_le, h1.not_le, h2.not_le, h2, h3]
  rcases le_or_lt v 7.9 with h4 | h4
  · simp [levelFromTable, h0.not_le, h1.not_le, h2.not_le, h3.not_le, h3, h4]
  rcases le_or_lt v 10.7 with h5 | h5
  · simp [levelFromTable, h0.not_le, h1.not_le, h2.not_le, h3.not_le, h4.not_le, h4, h5]
  rcases le_or_lt v 13.8 with h6 | h6
  · simp [levelFromTable, h0.not_le, h1.not_le, h2.not_le, h3.not_le, h4.not_le, h5.not_le,
      h5, h6]
  rcases le_or_lt v 17.1 with h7 | h7
  · simp [levelFromTable, h0.not_le, h1.not_le, h2.not_le, h3.not_le, h4.not_le, h5.not_le,
      h6.not_le, h6, h7]
  rcases le_or_lt v 20.7 with h8 | h8
  · simp [levelFromTable, h0.not_le, h1.not_le, h2.not_le, h3.not_le, h4.not_le, h5.not_le,
      h6.not_le, h7.not_le, h7, h8]
  rcases le_or_lt v 24.4 with h9 | h9
  · simp [levelFromTable, h0.not_le, h1.not_le, h2.not_le, h3.not_le, h4.not_le, h5.not_le,
      h6.not_le, h7.not_le, h8.not_le, h8, h9]
  rcases le_or_lt v 28.4 with h10 | h10
  · simp [levelFromTable, h0.not_le, h1.not_le, h2.not_le, h3.not_le, h4.not_le, h5.not_le,
      h6.not_le, h7.not_le, h8.not_le, h9.not_le, h9, h10]
  rcases le_or_lt v 32.6 with h11 | h11
  · simp [levelFromTable, h0.not_le, h1.not_le, h2.not_le, h3.not_le, h4.not_le, h5.not_le,
      h6.not_le, h7.not_le, h8.not_le, h9.not_le, h10.not_le, h10, h11]
  · simp [levelFromTable, h0.not_le, h1.not_le, h2.not_le, h3.not_le, h4.not_le, h5.not_le,
      h6.not_le, h7.not_le, h8.not_le, h9.not_le, h10.not_le, h11.not_le]

/-- C1: `metric_wind_dict_to_beaufort` keeps every key and replaces every
value not under `'deg'` by its Beaufort level per the spec's 13-interval
table (a value exactly at an upper bound getting the lower interval's
level), while the `'deg'` value passes through unchanged. -/
theorem metric_wind_dict_to_beaufort_matches_table (d : NumDict) :
    (metric_wind_dict_to_beaufort d).map Prod.fst = d.map Prod.fst ∧
    metric_wind_dict_to_beaufort d =
      d.map fun kv =>
        if kv.1 = "deg" then kv else (kv.1, (beaufortLevelSpec kv.2 : ℚ)) := by
  have hmap : metric_wind_dict_to_beaufort d =
      d.map fun kv =>
        if kv.1 = "deg" then kv else (kv.1, (beaufortLevelSpec kv.2 : ℚ)) := by
    unfold metric_wind_dict_to_beaufort
    congr 1
    funext kv
    by_cases h : kv.1 = "deg" <;> simp [h, beaufort_bf_eq_spec]
  refine ⟨?_, hmap⟩
  rw [hmap, List.map_map]
  congr 1
  funext kv
  by_cases h : kv.1 = "deg" <;> simp [h]

/-- C2: on a nonnegative Kelvin temperature, `kelvin_to_celsius` returns
`k - 273.15` rounded to 2 decimal places and `kelvin_to_fahrenheit` returns
`(k - 273.15) * 1.8 + 32.0` rounded to 2 decimal places. -/
theorem kelvin_scalar_conversion_values (k : ℚ) (h : 0 ≤ k) :
    kelvin_to_celsius (some k) = .ok (round2 (k - 273.15)) ∧
    kelvin_to_fahrenheit (some k) = .ok (round2 ((k - 273.15) * 1.8 + 32.0)) := by
  constructor <;>
    simp [kelvin_to_celsius, kelvin_to_fahrenheit, not_lt.mpr h,
      KELVIN_OFFSET, FAHRENHEIT_DEGREE_SCALE, FAHRENHEIT_OFFSET]

/-- Witness for C2 at k = 300: 26.85 °C and 80.33 °F. -/
theorem kelvin_scalar_conversion_values_witness :
    kelvin_to_celsius (some 300) = .ok (537 / 20 : ℚ) ∧
    kelvin_to_fahrenheit (some 300) = .ok (8033 / 100 : ℚ) := by
  have h := kelvin_scalar_conversion_values 300 (by norm_num)
  refine ⟨h.1.trans ?_, h.2.trans ?_⟩ <;> norm_num [round2, round_eq]

/-- C3: each scalar temperature conversion raises the invalid-temperature
ValueError exactly on negative inputs, and returns a value exactly on
nonnegative inputs. -/
theorem kelvin_scalar_negative_iff (k : ℚ) :
    (kelvin_to_celsius (some k) =
        .error (.valueError negativeTemperatureMsg) ↔ k < 0) ∧
    (kelvin_to_fahrenheit (some k) =
        .error (.valueError negativeTemperatureMsg) ↔ k < 0) ∧
    ((∃ c, kelvin_to_celsius (some k) = .ok c) ↔ ¬ k < 0) ∧
    ((∃ c, kelvin_to_fahrenheit (some k) = .ok c) ↔ ¬ k < 0) := by
  by_cases hk : k < 0 <;>
    simp [kelvin_to_celsius, kelvin_to_fahrenheit, hk]

/-- When the scalar conversion succeeds on every value of the dict, the
comprehension returns the converted dict, keys kept in order. -/
lemma dictComprehension_ok (f : PyVal → Except PyErr ℚ) (d : KDict)
    (h : ∀ kv ∈ d, ∃ v, f kv.2 = .ok v) :
    dictComprehension f d =
      .ok (d.map fun kv => (kv.1, (f kv.2).toOption)) := by
  induction d with
  | nil => rfl
  | cons kv rest ih =>
    obtain ⟨v, hv⟩ := h kv (by simp)
    have hrest := ih fun kv hkv => h kv (by simp [hkv])
    simp [dictComprehension, hv, hrest, Except.toOption]

/-- An error coming out of the comprehension is an error of the scalar
conversion at one of the values of the dict. -/
lemma dictComprehension_error_mem {f : PyVal → Except PyErr ℚ} {d : KDict}
    {e : PyErr} (h : dictComprehension f d = .error e) :
    ∃ kv ∈ d, f kv.2 = .error e := by
  induction d with
  | nil => simp [dictComprehension] at h
  | cons kv rest ih =>
    rw [dictComprehension] at h
    cases hfk : f kv.2 with
    | error e0 =>
      rw [hfk] at h
      simp only [Except.error.injEq] at h
      exact ⟨kv, by simp, by rw [hfk, h]⟩
    | ok v =>
      rw [hfk] at h
      cases hrest : dictComprehension f rest with
      | error e0 =>
        rw [hrest] at h
        simp only [Except.error.injEq] at h
        obtain ⟨kv0, hkv0, he0⟩ := ih (by rw [hrest, h])
        exact ⟨kv0, by simp [hkv0], he0⟩
      | ok tail => rw [hrest] at h; simp at h

/-- If the scalar conversion fails on some value of the dict, the
comprehension fails. -/
lemma dictComprehension_error_of_mem {f : PyVal → Except PyErr ℚ} {d : KDict}
    {kv : String × PyVal} (hmem : kv ∈ d) (he : ∃ e, f kv.2 = .error e) :
    ∃ e, dictComprehension f d = .error e := by
  induction d with
  | nil => cases hmem
  | cons hd rest ih =>
    rw [dictComprehension]
    cases hfk : f hd.2 with
    | error e0 => exact ⟨e0, rfl⟩
    | ok v =>
      rcases List.mem_cons.mp hmem with heq | hmem0
      · obtain ⟨e, hee⟩ := he
        rw [heq] at hee
        rw [hee] at hfk
        cases hfk
      · obtain ⟨e, hee⟩ := ih hmem0
        rw [hee]
        exact ⟨e, rfl⟩

/-- The errors of `kelvin_to_celsius` are the TypeError for `None` and the
negative-temperature ValueError, never the invalid-unit ValueError. -/
lemma kelvin_to_celsius_error_shape {v : PyVal} {e : PyErr}
    (h : kelvin_to_celsius v = .error e) :
    e = .typeError ∨ e = .valueError negativeTemperatureMsg := by
  match v with
  | none => simp [kelvin_to_celsius] at h; simp [← h]
  | some q =>
    rw [kelvin_to_celsius] at h
    by_cases hq : q < 0
    · rw [if_pos hq] at h
      simp only [Except.error.injEq] at h
      simp [← h]
    · rw [if_neg hq] at h
      cases h

/-- Same error shapes for `kelvin_to_fahrenheit`. -/
lemma kelvin_to_fahrenheit_error_shape {v : PyVal} {e : PyErr}
    (h : kelvin_to_fahrenheit v = .error e) :
    e = .typeError ∨ e = .valueError negativeTemperatureMsg := by
  match v with
  | none => simp [kelvin_to_fahrenheit] at h; simp [← h]
  | some q =>
    rw [kelvin_to_fahrenheit] at h
    by_cases hq : q < 0
    · rw [if_pos hq] at h
      simp only [Except.error.injEq] at h
      simp [← h]
    · rw [if_neg hq] at h
      cases h

/-- C4: with well-formed (numeric, nonnegative) temperature values,
`kelvin_dict_to` returns the input itself for `'kelvin'`, and for
`'celsius'`/`'fahrenheit'` a new dict with exactly the keys of the input
in which every value is replaced by the corresponding scalar conversion. -/
theorem kelvin_dict_to_unit_behaviour (d : KDict)
    (h : ∀ kv ∈ d, ∃ q : ℚ, kv.2 = some q ∧ 0 ≤ q) :
    kelvin_dict_to d "kelvin" = .ok d ∧
    kelvin_dict_to d "celsius" =
      .ok (d.map fun kv => (kv.1, (kelvin_to_celsius kv.2).toOption)) ∧
    kelvin_dict_to d "fahrenheit" =
      .ok (d.map fun kv => (kv.1, (kelvin_to_fahrenheit kv.2).toOption)) := by
  have hc : ∀ kv ∈ d, ∃ v, kelvin_to_celsius kv.2 = .ok v := by
    intro kv hkv
    obtain ⟨q, hq, hq0⟩ := h kv hkv
    exact ⟨round2 (q - KELVIN_OFFSET),
      by simp [kelvin_to_celsius, hq, not_lt.mpr hq0]⟩
  have hf : ∀ kv ∈ d, ∃ v, kelvin_to_fahrenheit kv.2 = .ok v := by
    intro kv hkv
    obtain ⟨q, hq, hq0⟩ := h kv hkv
    exact ⟨round2 ((q - KELVIN_OFFSET) * FAHRENHEIT_DEGREE_SCALE
        + FAHRENHEIT_OFFSET),
      by simp [kelvin_to_fahrenheit, hq, not_lt.mpr hq0]⟩
  refine ⟨by simp [kelvin_dict_to], ?_, ?_⟩
  · rw [kelvin_dict_to, if_neg (by decide), if_pos rfl]
    exact dictComprehension_ok _ _ hc
  · rw [kelvin_dict_to, if_neg (by decide), if_neg (by decide), if_pos rfl]
    exact dictComprehension_ok _ _ hf

/-- Witness for C4 on the dict {'temp': 300}. -/
theorem kelvin_dict_to_unit_behaviour_witness :
    kelvin_dict_to [("temp", some 300)] "kelvin" = .ok [("temp", some 300)] ∧
    kelvin_dict_to [("temp", some 300)] "celsius" =
      .ok [("temp", some (537 / 20 : ℚ))] ∧
    kelvin_dict_to [("temp", some 300)] "fahrenheit" =
      .ok [("temp", some (8033 / 100 : ℚ))] := by
  have h := kelvin_dict_to_unit_behaviour [("temp", some 300)]
    (by intro kv hkv; simp at hkv; exact ⟨300, by simp [hkv], by norm_num⟩)
  refine ⟨h.1, h.2.1.trans ?_, h.2.2.trans ?_⟩ <;>
    norm_num [kelvin_to_celsius, kelvin_to_fahrenheit, Except.toOption,
      KELVIN_OFFSET, FAHRENHEIT_DEGREE_SCALE, FAHRENHEIT_OFFSET,
      round2, round_eq]

/-- C5: `kelvin_dict_to` raises the invalid-unit ValueError exactly when
the unit is none of kelvin, celsius, fahrenheit (for a recognized unit any
error it raises is a scalar-conversion error, not the invalid-unit one),
and `visibility_dict_to` raises (necessarily the invalid-unit ValueError)
exactly when the unit is neither miles nor kms.  In the error case the
`Except.error` result carries no output mapping. -/
theorem invalid_unit_selector_errors (d : KDict) (dv : OptDict) (u : String) :
    (kelvin_dict_to d u = .error (.valueError invalidTemperatureUnitMsg) ↔
      ¬ (u = "kelvin" ∨ u = "celsius" ∨ u = "fahrenheit")) ∧
    ((∃ e, visibility_dict_to dv u = .error e) ↔
      ¬ (u = "miles" ∨ u = "kms")) ∧
    (visibility_dict_to dv u = .error (.valueError invalidVisibilityUnitMsg) ↔
      ¬ (u = "miles" ∨ u = "kms")) := by
  refine ⟨?_, ?_, ?_⟩
  · constructor
    · intro h
      rintro (hu | hu | hu) <;> rw [hu] at h
      · rw [kelvin_dict_to, if_pos rfl] at h
        cases h
      · rw [kelvin_dict_to, if_neg (by decide), if_pos rfl] at h
        obtain ⟨kv, _, hkv⟩ := dictComprehension_error_mem h
        rcases kelvin_to_celsius_error_shape hkv with he | he <;>
          simp [invalidTemperatureUnitMsg, negativeTemperatureMsg] at he
      · rw [kelvin_dict_to, if_neg (by decide), if_neg (by decide),
          if_pos rfl] at h
        obtain ⟨kv, _, hkv⟩ := dictComprehension_error_mem h
        rcases kelvin_to_fahrenheit_error_shape hkv with he | he <;>
          simp [invalidTemperatureUnitMsg, negativeTemperatureMsg] at he
    · intro h
      push_neg at h
      rw [kelvin_dict_to, if_neg h.1, if_neg h.2.1, if_neg h.2.2]
  · constructor
    · rintro ⟨e, he⟩
      rintro (hu | hu) <;> rw [hu] at he <;>
        rw [visibility_dict_to] at he <;> simp at he
    · intro h
      push_neg at h
      rw [visibility_dict_to, if_neg h.1, if_neg h.2]
      exact ⟨_, rfl⟩
  · constructor
    · intro he
      rintro (hu | hu) <;> rw [hu] at he <;>
        rw [visibility_dict_to] at he <;> simp at he
    · intro h
      push_neg at h
      rw [visibility_dict_to, if_neg h.1, if_neg h.2]

/-- C6: the three linear wind conversions return a new dict with exactly
the keys of the input, every non-`'deg'` value multiplied by 2.23694, 3.6
and 1.94384 respectively, with no rounding, and the `'deg'` value copied
through unchanged. -/
theorem metric_wind_linear_conversions (d : NumDict) :
    ((metric_wind_dict_to_imperial d).map Prod.fst = d.map Prod.fst ∧
      metric_wind_dict_to_imperial d =
        d.map fun kv =>
          if kv.1 = "deg" then kv else (kv.1, kv.2 * 2.23694)) ∧
    ((metric_wind_dict_to_km_h d).map Prod.fst = d.map Prod.fst ∧
      metric_wind_dict_to_km_h d =
        d.map fun kv =>
          if kv.1 = "deg" then kv else (kv.1, kv.2 * 3.6)) ∧
    ((metric_wind_dict_to_knots d).map Prod.fst = d.map Prod.fst ∧
      metric_wind_dict_to_knots d =
        d.map fun kv =>
          if kv.1 = "deg" then kv else (kv.1, kv.2 * 1.94384)) := by
  have hkeys : ∀ g : String × ℚ → String × ℚ, (∀ kv, (g kv).1 = kv.1) →
      (d.map g).map Prod.fst = d.map Prod.fst := by
    intro g hg
    rw [List.map_map]
    congr 1
    funext kv
    exact hg kv
  have hdeg : ∀ kv : String × ℚ,
      ((if kv.1 = "deg" then kv else (kv.1, kv.2 * 2.23694)) : String × ℚ).1
        = kv.1 ∧
      ((if kv.1 = "deg" then kv else (kv.1, kv.2 * 3.6)) : String × ℚ).1
        = kv.1 ∧
      ((if kv.1 = "deg" then kv else (kv.1, kv.2 * 1.94384)) : String × ℚ).1
        = kv.1 := by
    intro kv
    by_cases h : kv.1 = "deg" <;> simp [h]
  have himp : metric_wind_dict_to_imperial d =
      d.map fun kv => if kv.1 = "deg" then kv else (kv.1, kv.2 * 2.23694) := by
    rw [metric_wind_dict_to_imperial]
    congr 1
    funext kv
    by_cases h : kv.1 = "deg" <;>
      simp [h, MILES_PER_HOUR_FOR_ONE_METER_PER_SEC]
  have hkm : metric_wind_dict_to_km_h d =
      d.map fun kv => if kv.1 = "deg" then kv else (kv.1, kv.2 * 3.6) := by
    rw [metric_wind_dict_to_km_h]
    congr 1
    funext kv
    by_cases h : kv.1 = "deg" <;>
      simp [h, KM_PER_HOUR_FOR_ONE_METER_PER_SEC]
  have hknots : metric_wind_dict_to_knots d =
      d.map fun kv => if kv.1 = "deg" then kv else (kv.1, kv.2 * 1.94384) := by
    rw [metric_wind_dict_to_knots]
    congr 1
    funext kv
    by_cases h : kv.1 = "deg" <;>
      simp [h, KNOTS_FOR_ONE_METER_PER_SEC]
  refine ⟨⟨?_, himp⟩, ⟨?_, hkm⟩, ⟨?_, hknots⟩⟩
  · rw [himp]
    exact hkeys _ fun kv => (hdeg kv).1
  · rw [hkm]
    exact hkeys _ fun kv => (hdeg kv).2.1
  · rw [hknots]
    exact hkeys _ fun kv => (hdeg kv).2.2

/-- C7: the pressure conversion keeps exactly the non-null-valued keys,
dividing by 33.8639 and rounding to 2 decimals, and the visibility
conversion (default unit miles) does the same with factor 0.000621371 for
miles and 0.001 for kms. -/
theorem pressure_and_visibility_conversions (d : OptDict) :
    ((metric_pressure_dict_to_inhg d).map Prod.fst =
        (d.filter fun kv => kv.2 ≠ none).map Prod.fst ∧
      metric_pressure_dict_to_inhg d =
        d.filterMap fun kv =>
          kv.2.map fun v => (kv.1, round2 (v / 33.8639))) ∧
    visibility_dict_to d =
      .ok (d.filterMap fun kv =>
        kv.2.map fun v => (kv.1, round2 (v * 0.000621371))) ∧
    visibility_dict_to d "miles" =
      .ok (d.filterMap fun kv =>
        kv.2.map fun v => (kv.1, round2 (v * 0.000621371))) ∧
    visibility_dict_to d "kms" =
      .ok (d.filterMap fun kv =>
        kv.2.map fun v => (kv.1, round2 (v * 0.001))) ∧
    (∃ res : NumDict, visibility_dict_to d "miles" = .ok res ∧
      res.map Prod.fst = (d.filter fun kv => kv.2 ≠ none).map Prod.fst) := by
  have hkeys : ∀ (g : String × PyVal → ℚ → String × ℚ),
      (∀ kv v, (g kv v).1 = kv.1) →
      ∀ l : OptDict,
        (l.filterMap fun kv => kv.2.map (g kv)).map Prod.fst =
          (l.filter fun kv => kv.2 ≠ none).map Prod.fst := by
    intro g hg l
    induction l with
    | nil => rfl
    | cons kv rest ih =>
      match hv : kv.2 with
      | none => simp [hv, ih]
      | some v => simp [hv, ih, hg]
  have hpress : metric_pressure_dict_to_inhg d =
      d.filterMap fun kv =>
        kv.2.map fun v => (kv.1, round2 (v / 33.8639)) := by
    rw [metric_pressure_dict_to_inhg]
    congr 1
    funext kv
    match hv : kv.2 with
    | none => simp [hv]
    | some v => simp [hv, HPA_FOR_ONE_INHG]
  have hmiles : visibility_dict_to d "miles" =
      .ok (d.filterMap fun kv =>
        kv.2.map fun v => (kv.1, round2 (v * 0.000621371))) := by
    rw [visibility_dict_to, if_pos rfl]
    refine congrArg Except.ok ?_
    congr 1
    funext kv
    match hv : kv.2 with
    | none => simp [hv]
    | some v => simp [hv, MILE_FOR_ONE_METER]
  have hkms : visibility_dict_to d "kms" =
      .ok (d.filterMap fun kv =>
        kv.2.map fun v => (kv.1, round2 (v * 0.001))) := by
    rw [visibility_dict_to, if_neg (by decide), if_pos rfl]
    refine congrArg Except.ok ?_
    congr 1
    funext kv
    match hv : kv.2 with
    | none => simp [hv]
    | some v => simp [hv, KMS_FOR_ONE_METER]
  refine ⟨⟨?_, hpress⟩, hmiles, hmiles, hkms, ?_⟩
  · rw [hpress]
    exact hkeys _ (fun kv v => rfl) d
  · exact ⟨_, hmiles, hkeys _ (fun kv v => rfl) d⟩

/-- Reading any table whose levels are at most 12 yields at most 12. -/
lemma levelFromTable_le (v : ℚ) :
    ∀ t : List (ℚ × ℕ), (∀ row ∈ t, row.2 ≤ 12) →
      levelFromTable v t ≤ 12 := by
  intro t ht
  induction t with
  | nil => simp [levelFromTable]
  | cons row rest ih =>
    rw [levelFromTable]
    by_cases h : v ≤ row.1
    · rw [if_pos h]
      exact ht row (by simp)
    · rw [if_neg h]
      exact ih fun r hr => ht r (by simp [hr])

/-- The `bf` cascade only produces levels 0 through 12. -/
lemma beaufort_bf_le_12 (v : ℚ) : beaufort_bf v ≤ 12 := by
  rw [beaufort_bf_eq_spec, beaufortLevelSpec]
  exact levelFromTable_le v beaufortTable (by decide)

/-- C9: every non-`'deg'` value produced by `metric_wind_dict_to_beaufort`
is a natural number at most 12, and every speed at most 0.2 — negative
speeds included — gets level 0, with no error possible (the function is
total). -/
theorem beaufort_levels_in_range (d : NumDict) :
    (∀ kv ∈ metric_wind_dict_to_beaufort d, kv.1 ≠ "deg" →
      ∃ n : ℕ, n ≤ 12 ∧ kv.2 = (n : ℚ)) ∧
    (∀ (k : String) (v : ℚ), k ≠ "deg" → v ≤ 0.2 →
      metric_wind_dict_to_beaufort [(k, v)] = [(k, 0)]) := by
  constructor
  · intro kv hkv hdeg
    rw [metric_wind_dict_to_beaufort] at hkv
    obtain ⟨a, _, ha⟩ := List.mem_map.mp hkv
    by_cases h : a.1 = "deg"
    · rw [if_neg (by simp [h])] at ha
      rw [← ha] at hdeg
      exact absurd h hdeg
    · rw [if_pos h] at ha
      exact ⟨beaufort_bf a.2, beaufort_bf_le_12 a.2, by rw [← ha]⟩
  · intro k v hk hv
    simp [metric_wind_dict_to_beaufort, beaufort_bf, hk, hv]

/-- Witness for C9: a negative speed raises nothing and maps to level 0. -/
theorem beaufort_levels_in_range_witness :
    metric_wind_dict_to_beaufort [("speed", (-1 : ℚ))] = [("speed", 0)] :=
  (beaufort_levels_in_range [("speed", (-1 : ℚ))]).2 "speed" (-1)
    (by decide) (by norm_num)

/-- C10: with target unit kelvin, `kelvin_dict_to` validates nothing and
returns the input dict itself, whatever its values (negative numbers and
`None` included); with target unit celsius or fahrenheit it raises as soon
as some value is negative. -/
theorem kelvin_dict_to_kelvin_no_validation (d : KDict) :
    kelvin_dict_to d "kelvin" = .ok d ∧
    (∀ (k : String) (q : ℚ), (k, some q) ∈ d → q < 0 →
      (∃ e, kelvin_dict_to d "celsius" = .error e) ∧
      (∃ e, kelvin_dict_to d "fahrenheit" = .error e)) := by
  refine ⟨by simp [kelvin_dict_to], ?_⟩
  intro k q hmem hq
  constructor
  · rw [kelvin_dict_to, if_neg (by decide), if_pos rfl]
    exact dictComprehension_error_of_mem hmem
      ⟨.valueError negativeTemperatureMsg, by simp [kelvin_to_celsius, hq]⟩
  · rw [kelvin_dict_to, if_neg (by decide), if_neg (by decide), if_pos rfl]
    exact dictComprehension_error_of_mem hmem
      ⟨.valueError negativeTemperatureMsg,
        by simp [kelvin_to_fahrenheit, hq]⟩

/-- Witness for C10: a dict holding a negative temperature and a null is
returned as is for kelvin, and makes celsius and fahrenheit raise. -/
theorem kelvin_dict_to_kelvin_no_validation_witness :
    kelvin_dict_to [("temp", some (-5 : ℚ)), ("x", none)] "kelvin" =
      .ok [("temp", some (-5 : ℚ)), ("x", none)] ∧
    (∃ e, kelvin_dict_to [("temp", some (-5 : ℚ)), ("x", none)] "celsius" =
      .error e) ∧
    (∃ e, kelvin_dict_to [("temp", some (-5 : ℚ)), ("x", none)] "fahrenheit" =
      .error e) := by
  have h := kelvin_dict_to_kelvin_no_validation
    [("temp", some (-5 : ℚ)), ("x", none)]
  have h2 := h.2 "temp" (-5) (by simp) (by norm_num)
  exact ⟨h.1, h2.1, h2.2⟩

lemma Heap.get_set_ne {α : Type} (h : Heap α) {s r : ℕ}
    (d : List (String × α)) (hne : s ≠ r) :
    (Heap.set h s d).get r = h.get r := by
  unfold Heap.set Heap.get
  rw [List.getD_eq_getD_get?, List.getD_eq_getD_get?, List.get?_eq_getElem?,
    List.get?_eq_getElem?, List.getElem?_set_ne hne]

lemma Heap.get_set_self {α : Type} (h : Heap α) {r : ℕ}
    (d : List (String × α)) (hr : r < h.dicts.length) :
    (Heap.set h r d).get r = d := by
  unfold Heap.set Heap.get
  rw [List.getD_eq_getD_get?, List.get?_eq_getElem?,
    List.getElem?_set_self hr]
  rfl

lemma Heap.length_setItem {α : Type} (h : Heap α) (r : ℕ) (k : String)
    (v : α) : (Heap.setItem h r k v).dicts.length = h.dicts.length := by
  unfold Heap.setItem Heap.set
  exact List.length_set ..

lemma Heap.get_setItem_ne {α : Type} (h : Heap α) {s r : ℕ} (k : String)
    (v : α) (hne : s ≠ r) : (Heap.setItem h s k v).get r = h.get r :=
  Heap.get_set_ne h _ hne

lemma Heap.get_setItem_self {α : Type} (h : Heap α) {r : ℕ} (k : String)
    (v : α) (hr : r < h.dicts.length) :
    (Heap.setItem h r k v).get r = assocSet (h.get r) k v :=
  Heap.get_set_self h _ hr

lemma Heap.get_alloc {α : Type} (h : Heap α) {r : ℕ}
    (hr : r < h.dicts.length) : (Heap.alloc h).1.get r = h.get r := by
  unfold Heap.alloc Heap.get
  exact List.getD_append _ _ _ _ hr

lemma Heap.get_alloc_new {α : Type} (h : Heap α) :
    (Heap.alloc h).1.get (Heap.alloc h).2 = [] := by
  unfold Heap.alloc Heap.get
  rw [List.getD_append_right _ _ _ _ le_rfl]
  simp

lemma Heap.length_alloc {α : Type} (h : Heap α) :
    (Heap.alloc h).1.dicts.length = h.dicts.length + 1 := by
  unfold Heap.alloc
  simp

lemma assocSet_not_mem {α : Type} (d : List (String × α)) (k : String)
    (v : α) (hk : k ∉ d.map Prod.fst) : assocSet d k v = d ++ [(k, v)] :=
  if_neg hk

/-- The loop never touches a dict other than its result dict. -/
lemma buildLoopGo_get_ne {α : Type}
    (step : String → α → Except PyErr (Option (String × α)))
    {result r : ℕ} (hne : result ≠ r) :
    ∀ (l : List (String × α)) (h : Heap α),
      (buildLoopGo step result l h).1.get r = h.get r := by
  intro l
  induction l with
  | nil => intro h; rfl
  | cons kv rest ih =>
    intro h
    simp only [buildLoopGo]
    split
    · rfl
    · exact ih h
    · rw [ih]
      exact Heap.get_setItem_ne h _ _ hne

/-- When every step succeeds and the input keys are distinct and fresh for
the result dict, the loop succeeds and appends exactly the stepped items
to the result dict. -/
lemma buildLoopGo_ok {α : Type}
    (step : String → α → Except PyErr (Option (String × α))) (result : ℕ)
    (hkey : ∀ k v kv2, step k v = .ok (some kv2) → kv2.1 = k) :
    ∀ (l : List (String × α)) (h : Heap α),
      result < h.dicts.length →
      (∀ kv ∈ l, kv.1 ∉ (h.get result).map Prod.fst) →
      (l.map Prod.fst).Nodup →
      (∀ kv ∈ l, ∃ o, step kv.1 kv.2 = .ok o) →
      (buildLoopGo step result l h).2 = .ok result ∧
      (buildLoopGo step result l h).1.get result =
        h.get result ++ l.filterMap fun kv =>
          ((step kv.1 kv.2).toOption).join := by
  intro l
  induction l with
  | nil => intro h _ _ _ _; exact ⟨rfl, by simp [buildLoopGo]⟩
  | cons kv rest ih =>
    intro h hlen hkeys hnodup hok
    have hnodup' : kv.1 ∉ rest.map Prod.fst ∧ (rest.map Prod.fst).Nodup := by
      rw [List.map_cons, List.nodup_cons] at hnodup
      exact hnodup
    obtain ⟨o, ho⟩ := hok kv (List.mem_cons_self kv rest)
    simp only [buildLoopGo]
    cases o with
    | none =>
      obtain ⟨h1, h2⟩ := ih h hlen
        (fun kv2 hkv2 => hkeys kv2 (List.mem_cons_of_mem kv hkv2))
        hnodup'.2
        (fun kv2 hkv2 => hok kv2 (List.mem_cons_of_mem kv hkv2))
      constructor
      · simp only [ho]
        exact h1
      · simp only [ho, List.filterMap_cons, Except.toOption, Option.join,
          Option.some_bind, id_eq]
        exact h2
    | some kv2 =>
      have hk2 : kv2.1 = kv.1 := hkey _ _ _ ho
      have hmem : kv.1 ∉ (h.get result).map Prod.fst :=
        hkeys kv (List.mem_cons_self kv rest)
      have hset : (h.setItem result kv2.1 kv2.2).get result =
          h.get result ++ [kv2] := by
        rw [Heap.get_setItem_self h _ _ hlen,
          assocSet_not_mem _ _ _ (by rw [hk2]; exact hmem)]
      have hlen2 : result < (h.setItem result kv2.1 kv2.2).dicts.length := by
        rw [Heap.length_setItem]
        exact hlen
      have hkeys2 : ∀ kv3 ∈ rest,
          kv3.1 ∉ ((h.setItem result kv2.1 kv2.2).get result).map
            Prod.fst := by
        intro kv3 hkv3
        rw [hset]
        simp only [List.map_append, List.mem_append, List.map_cons,
          List.map_nil, List.mem_singleton]
        rintro (hin | hin)
        · exact hkeys kv3 (List.mem_cons_of_mem kv hkv3) hin
        · rw [hk2] at hin
          exact hnodup'.1 (hin ▸ List.mem_map_of_mem Prod.fst hkv3)
      obtain ⟨h1, h2⟩ := ih (h.setItem result kv2.1 kv2.2) hlen2 hkeys2
        hnodup'.2
        (fun kv3 hkv3 => hok kv3 (List.mem_cons_of_mem kv hkv3))
      constructor
      · simp only [ho]
        exact h1
      · simp only [ho, List.filterMap_cons, Except.toOption, Option.join,
          Option.some_bind, id_eq]
        rw [h2, hset, List.append_assoc, List.singleton_append]
        rfl

/-- The whole loop leaves the input dict untouched. -/
lemma buildLoop_frame {α : Type}
    (step : String → α → Except PyErr (Option (String × α)))
    (h : Heap α) (r : ℕ) (hr : r < h.dicts.length) :
    (buildLoop step h r).1.get r = h.get r := by
  have hne : (Heap.alloc h).2 ≠ r := by
    simp only [Heap.alloc]
    exact ne_of_gt hr
  rw [buildLoop, buildLoopGo_get_ne step hne]
  exact Heap.get_alloc h hr

/-- When every step succeeds, the whole loop returns the fresh reference
and leaves there the `filterMap` of the steps over the input dict. -/
lemma buildLoop_ok {α : Type}
    (step : String → α → Except PyErr (Option (String × α)))
    (h : Heap α) (r : ℕ)
    (hkey : ∀ k v kv2, step k v = .ok (some kv2) → kv2.1 = k)
    (hr : r < h.dicts.length)
    (hnodup : ((h.get r).map Prod.fst).Nodup)
    (hok : ∀ kv ∈ h.get r, ∃ o, step kv.1 kv.2 = .ok o) :
    (buildLoop step h r).2 = .ok (Heap.alloc h).2 ∧
    (buildLoop step h r).1.get (Heap.alloc h).2 =
      (h.get r).filterMap fun kv => ((step kv.1 kv.2).toOption).join := by
  have hga := Heap.get_alloc h hr
  have hlen : (Heap.alloc h).2 < (Heap.alloc h).1.dicts.length := by
    rw [Heap.length_alloc]
    simp [Heap.alloc]
  have hkeys0 : ∀ kv ∈ (Heap.alloc h).1.get r,
      kv.1 ∉ (((Heap.alloc h).1.get (Heap.alloc h).2).map Prod.fst) := by
    rw [Heap.get_alloc_new]
    simp
  obtain ⟨h1, h2⟩ := buildLoopGo_ok step (Heap.alloc h).2 hkey
    ((Heap.alloc h).1.get r) (Heap.alloc h).1 hlen hkeys0
    (by rw [hga]; exact hnodup) (by rw [hga]; exact hok)
  rw [buildLoop]
  refine ⟨h1, ?_⟩
  rw [h2, Heap.get_alloc_new, hga]
  simp

lemma filterMap_some_eq_map {α β : Type} (g : α → β) (l : List α) :
    (l.filterMap fun x => some (g x)) = l.map g := by
  induction l with
  | nil => rfl
  | cons a t ih => simp [ih]

/-- The whole loop, for the total per-item transforms of the wind
conversions: the result dict holds exactly the mapped input. -/
lemma buildLoop_map {α : Type} (g : String × α → String × α)
    (hg : ∀ kv, (g kv).1 = kv.1) (h : Heap α) (r : ℕ)
    (hr : r < h.dicts.length)
    (hnodup : ((h.get r).map Prod.fst).Nodup) :
    (buildLoop (fun key value => .ok (some (g (key, value)))) h r).2 =
      .ok (Heap.alloc h).2 ∧
    (buildLoop (fun key value => .ok (some (g (key, value)))) h r).1.get
        (Heap.alloc h).2 = (h.get r).map g := by
  obtain ⟨h1, h2⟩ := buildLoop_ok
    (fun key value => .ok (some (g (key, value)))) h r
    (by
      intro k v kv2 hkv2
      simp only [Except.ok.injEq, Option.some.injEq] at hkv2
      rw [← hkv2]
      exact hg (k, v))
    hr hnodup (fun kv _ => ⟨some (g (kv.1, kv.2)), rfl⟩)
  refine ⟨h1, ?_⟩
  rw [h2]
  exact filterMap_some_eq_map g (h.get r)

/-- The whole loop, for the skip-`None` transforms of the pressure and
visibility conversions. -/
lemma buildLoop_skip_none (conv : ℚ → ℚ) (h : Heap PyVal) (r : ℕ)
    (hr : r < h.dicts.length)
    (hnodup : ((h.get r).map Prod.fst).Nodup) :
    (buildLoop
      (fun key value =>
        match value with
        | none => .ok none
        | some v => .ok (some (key, some (conv v)))) h r).2 =
      .ok (Heap.alloc h).2 ∧
    (buildLoop
      (fun key value =>
        match value with
        | none => .ok none
        | some v => .ok (some (key, some (conv v)))) h r).1.get
        (Heap.alloc h).2 =
      (h.get r).filterMap fun kv =>
        kv.2.map fun v => (kv.1, some (conv v)) := by
  obtain ⟨h1, h2⟩ := buildLoop_ok
    (fun key value =>
      match value with
      | none => .ok none
      | some v => .ok (some (key, some (conv v)))) h r
    (by
      intro k v kv2 hkv2
      match v with
      | none => cases hkv2
      | some q =>
        simp only [Except.ok.injEq, Option.some.injEq] at hkv2
        rw [← hkv2])
    hr hnodup
    (by
      intro kv _
      match hv : kv.2 with
      | none => exact ⟨none, rfl⟩
      | some q => exact ⟨some (kv.1, some (conv q)), rfl⟩)
  refine ⟨h1, ?_⟩
  rw [h2]
  congr 1
  funext kv
  match hv : kv.2 with
  | none => rfl
  | some q => rfl

/-- Wrapping the values of a skip-`None` conversion back into `PyVal`
commutes with the conversion. -/
lemma filterMap_wrap (conv : ℚ → ℚ) (d : OptDict) :
    (d.filterMap fun kv =>
        match kv.2 with
        | none => none
        | some v => some (kv.1, conv v)).map
      (fun kv => (kv.1, some kv.2)) =
    d.filterMap fun kv => kv.2.map fun v => (kv.1, some (conv v)) := by
  induction d with
  | nil => rfl
  | cons kv rest ih =>
    match hv : kv.2 with
    | none => simp [hv, ih]
    | some v => simp [hv, ih]

/-- A successful comprehension means every scalar conversion succeeded. -/
lemma dictComprehension_ok_all {f : PyVal → Except PyErr ℚ} {d : KDict}
    {kd : KDict} (h : dictComprehension f d = .ok kd) :
    ∀ kv ∈ d, ∃ v, f kv.2 = .ok v := by
  induction d generalizing kd with
  | nil => intro kv hkv; cases hkv
  | cons kv0 rest ih =>
    intro kv hkv
    rw [dictComprehension] at h
    cases hfk : f kv0.2 with
    | error e => rw [hfk] at h; cases h
    | ok v =>
      rw [hfk] at h
      cases hrest : dictComprehension f rest with
      | error e => rw [hrest] at h; cases h
      | ok tail =>
        rcases List.mem_cons.mp hkv with heq | hmem
        · exact ⟨v, by rw [heq]; exact hfk⟩
        · exact ih hrest kv hmem

/-- The step of the comprehension loop produces exactly the entries of the
pure comprehension when every scalar conversion succeeds. -/
lemma filterMap_comprehension (f : PyVal → Except PyErr ℚ) (d : KDict)
    (hall : ∀ kv ∈ d, ∃ v, f kv.2 = .ok v) :
    (d.filterMap fun kv =>
        (((f kv.2).map fun c => some (kv.1, some c)).toOption).join) =
      d.map fun kv => (kv.1, (f kv.2).toOption) := by
  induction d with
  | nil => rfl
  | cons kv rest ih =>
    obtain ⟨v, hv⟩ := hall kv (List.mem_cons_self kv rest)
    have ih2 := ih fun kv2 h2 => hall kv2 (List.mem_cons_of_mem kv h2)
    simp only [List.filterMap_cons, List.map_cons, hv, Except.map,
      Except.toOption, Option.join, Option.some_bind, id_eq] at ih2 ⊢
    rw [ih2]

/-- The comprehension loop over the store computes the pure comprehension
in its fresh dict whenever the latter succeeds. -/
lemma buildLoop_comprehension (f : PyVal → Except PyErr ℚ)
    (h : Heap PyVal) (r : ℕ) (hr : r < h.dicts.length)
    (hnodup : ((h.get r).map Prod.fst).Nodup) {kd : KDict}
    (hok : dictComprehension f (h.get r) = .ok kd) :
    (buildLoop (fun key value => (f value).map fun c => some (key, some c))
        h r).2 = .ok (Heap.alloc h).2 ∧
    (buildLoop (fun key value => (f value).map fun c => some (key, some c))
        h r).1.get (Heap.alloc h).2 = kd := by
  have hall := dictComprehension_ok_all hok
  obtain ⟨h1, h2⟩ := buildLoop_ok
    (fun key value => (f value).map fun c => some (key, some c)) h r
    (by
      intro k v kv2 hkv2
      have hkv3 : (f v).map (fun c => some (k, some c)) = .ok (some kv2) :=
        hkv2
      match hfv : f v with
      | .error e =>
        rw [hfv] at hkv3
        simp [Except.map] at hkv3
      | .ok c =>
        rw [hfv] at hkv3
        simp only [Except.map, Except.ok.injEq, Option.some.injEq] at hkv3
        rw [← hkv3])
    hr hnodup
    (by
      intro kv hkv
      obtain ⟨v, hv⟩ := hall kv hkv
      refine ⟨some (kv.1, some v), ?_⟩
      show (f kv.2).map (fun c => some (kv.1, some c)) = _
      rw [hv]
      rfl)
  refine ⟨h1, ?_⟩
  rw [h2, filterMap_comprehension f (h.get r) hall]
  have := dictComprehension_ok f (h.get r) hall
  rw [hok] at this
  exact (Except.ok.injEq _ _ ▸ this).symm

/-- C8: every dict conversion is pure.  Run over an explicit store of dict
objects, each conversion leaves the dict at the input reference exactly as
it was, and the value it leaves in its freshly allocated result dict is a
function of the input dict value alone — the corresponding pure definition
— so two calls on equal inputs yield equal results.  `kelvin_dict_to` with
unit kelvin returns the input reference itself without touching the store,
and even a failing conversion leaves the input dict unchanged. -/
theorem conversion_functions_pure (hw : Heap ℚ) (hp : Heap PyVal) (r : ℕ)
    (hrw : r < hw.dicts.length) (hrp : r < hp.dicts.length)
    (hnw : ((hw.get r).map Prod.fst).Nodup)
    (hnp : ((hp.get r).map Prod.fst).Nodup) :
    ((metric_wind_dict_to_imperial_impl hw r).1.get r = hw.get r ∧
      ∃ res, (metric_wind_dict_to_imperial_impl hw r).2 = .ok res ∧
        (metric_wind_dict_to_imperial_impl hw r).1.get res =
          metric_wind_dict_to_imperial (hw.get r)) ∧
    ((metric_wind_dict_to_km_h_impl hw r).1.get r = hw.get r ∧
      ∃ res, (metric_wind_dict_to_km_h_impl hw r).2 = .ok res ∧
        (metric_wind_dict_to_km_h_impl hw r).1.get res =
          metric_wind_dict_to_km_h (hw.get r)) ∧
    ((metric_wind_dict_to_knots_impl hw r).1.get r = hw.get r ∧
      ∃ res, (metric_wind_dict_to_knots_impl hw r).2 = .ok res ∧
        (metric_wind_dict_to_knots_impl hw r).1.get res =
          metric_wind_dict_to_knots (hw.get r)) ∧
    ((metric_wind_dict_to_beaufort_impl hw r).1.get r = hw.get r ∧
      ∃ res, (metric_wind_dict_to_beaufort_impl hw r).2 = .ok res ∧
        (metric_wind_dict_to_beaufort_impl hw r).1.get res =
          metric_wind_dict_to_beaufort (hw.get r)) ∧
    ((metric_pressure_dict_to_inhg_impl hp r).1.get r = hp.get r ∧
      ∃ res, (metric_pressure_dict_to_inhg_impl hp r).2 = .ok res ∧
        (metric_pressure_dict_to_inhg_impl hp r).1.get res =
          (metric_pressure_dict_to_inhg (hp.get r)).map
            fun kv => (kv.1, some kv.2)) ∧
    ((∀ u, (visibility_dict_to_impl hp r u).1.get r = hp.get r) ∧
      ∀ u nd, visibility_dict_to (hp.get r) u = .ok nd →
        ∃ res, (visibility_dict_to_impl hp r u).2 = .ok res ∧
          (visibility_dict_to_impl hp r u).1.get res =
            nd.map fun kv => (kv.1, some kv.2)) ∧
    ((∀ u, (kelvin_dict_to_impl hp r u).1.get r = hp.get r) ∧
      kelvin_dict_to_impl hp r "kelvin" = (hp, .ok r) ∧
      ∀ u kd, (u = "celsius" ∨ u = "fahrenheit") →
        kelvin_dict_to (hp.get r) u = .ok kd →
          ∃ res, (kelvin_dict_to_impl hp r u).2 = .ok res ∧
            (kelvin_dict_to_impl hp r u).1.get res = kd) := by
  have hdegQ : ∀ c : ℚ, ∀ kv : String × ℚ,
      ((if kv.1 ≠ "deg" then (kv.1, kv.2 * c) else (kv.1, kv.2)).1 : String)
        = kv.1 := by
    intro c kv
    by_cases h : kv.1 = "deg" <;> simp [h]
  have hdegB : ∀ kv : String × ℚ,
      ((if kv.1 ≠ "deg" then (kv.1, (beaufort_bf kv.2 : ℚ))
        else (kv.1, kv.2)).1 : String) = kv.1 := by
    intro kv
    by_cases h : kv.1 = "deg" <;> simp [h]
  refine ⟨⟨?_, ?_⟩, ⟨?_, ?_⟩, ⟨?_, ?_⟩, ⟨?_, ?_⟩, ⟨?_, ?_⟩, ⟨?_, ?_⟩,
    ?_, ?_, ?_⟩
  · exact buildLoop_frame _ hw r hrw
  · obtain ⟨h1, h2⟩ := buildLoop_map
      (fun kv => if kv.1 ≠ "deg" then
        (kv.1, kv.2 * MILES_PER_HOUR_FOR_ONE_METER_PER_SEC)
      else (kv.1, kv.2)) (hdegQ _) hw r hrw hnw
    exact ⟨(Heap.alloc hw).2, h1, h2⟩
  · exact buildLoop_frame _ hw r hrw
  · obtain ⟨h1, h2⟩ := buildLoop_map
      (fun kv => if kv.1 ≠ "deg" then
        (kv.1, kv.2 * KM_PER_HOUR_FOR_ONE_METER_PER_SEC)
      else (kv.1, kv.2)) (hdegQ _) hw r hrw hnw
    exact ⟨(Heap.alloc hw).2, h1, h2⟩
  · exact buildLoop_frame _ hw r hrw
  · obtain ⟨h1, h2⟩ := buildLoop_map
      (fun kv => if kv.1 ≠ "deg" then
        (kv.1, kv.2 * KNOTS_FOR_ONE_METER_PER_SEC)
      else (kv.1, kv.2)) (hdegQ _) hw r hrw hnw
    exact ⟨(Heap.alloc hw).2, h1, h2⟩
  · exact buildLoop_frame _ hw r hrw
  · obtain ⟨h1, h2⟩ := buildLoop_map
      (fun kv => if kv.1 ≠ "deg" then
        (kv.1, (beaufort_bf kv.2 : ℚ))
      else (kv.1, kv.2)) hdegB hw r hrw hnw
    exact ⟨(Heap.alloc hw).2, h1, h2⟩
  · exact buildLoop_frame _ hp r hrp
  · obtain ⟨h1, h2⟩ := buildLoop_skip_none
      (fun v => round2 (v / HPA_FOR_ONE_INHG)) hp r hrp hnp
    refine ⟨(Heap.alloc hp).2, h1, h2.trans ?_⟩
    exact (filterMap_wrap (fun v => round2 (v / HPA_FOR_ONE_INHG))
      (hp.get r)).symm
  · intro u
    by_cases hm : u = "miles"
    · rw [visibility_dict_to_impl, if_pos hm]
      exact buildLoop_frame _ hp r hrp
    · by_cases hk : u = "kms"
      · rw [visibility_dict_to_impl, if_neg hm, if_pos hk]
        exact buildLoop_frame _ hp r hrp
      · rw [visibility_dict_to_impl, if_neg hm, if_neg hk]
        exact Heap.get_alloc hp hrp
  · intro u nd hnd
    by_cases hm : u = "miles"
    · subst hm
      rw [visibility_dict_to, if_pos rfl] at hnd
      obtain ⟨h1, h2⟩ := buildLoop_skip_none
        (fun v => round2 (v * MILE_FOR_ONE_METER)) hp r hrp hnp
      rw [visibility_dict_to_impl, if_pos rfl]
      refine ⟨(Heap.alloc hp).2, h1, h2.trans ?_⟩
      rw [← (Except.ok.injEq _ _).mp hnd]
      exact (filterMap_wrap (fun v => round2 (v * MILE_FOR_ONE_METER))
        (hp.get r)).symm
    · by_cases hk : u = "kms"
      · subst hk
        rw [visibility_dict_to, if_neg (by decide), if_pos rfl] at hnd
        obtain ⟨h1, h2⟩ := buildLoop_skip_none
          (fun v => round2 (v * KMS_FOR_ONE_METER)) hp r hrp hnp
        rw [visibility_dict_to_impl, if_neg (by decide), if_pos rfl]
        refine ⟨(Heap.alloc hp).2, h1, h2.trans ?_⟩
        rw [← (Except.ok.injEq _ _).mp hnd]
        exact (filterMap_wrap (fun v => round2 (v * KMS_FOR_ONE_METER))
          (hp.get r)).symm
      · rw [visibility_dict_to, if_neg hm, if_neg hk] at hnd
        cases hnd
  · intro u
    by_cases h1 : u = "kelvin"
    · rw [kelvin_dict_to_impl, if_pos h1]
    · by_cases h2 : u = "celsius"
      · rw [kelvin_dict_to_impl, if_neg h1, if_pos h2]
        exact buildLoop_frame _ hp r hrp
      · by_cases h3 : u = "fahrenheit"
        · rw [kelvin_dict_to_impl, if_neg h1, if_neg h2, if_pos h3]
          exact buildLoop_frame _ hp r hrp
        · rw [kelvin_dict_to_impl, if_neg h1, if_neg h2, if_neg h3]
  · rw [kelvin_dict_to_impl, if_pos rfl]
  · intro u kd hu hkd
    rcases hu with hu | hu
    · subst hu
      rw [kelvin_dict_to, if_neg (by decide), if_pos rfl] at hkd
      obtain ⟨h1, h2⟩ :=
        buildLoop_comprehension kelvin_to_celsius hp r hrp hnp hkd
      rw [kelvin_dict_to_impl, if_neg (by decide), if_pos rfl]
      exact ⟨(Heap.alloc hp).2, h1, h2⟩
    · subst hu
      rw [kelvin_dict_to, if_neg (by decide), if_neg (by decide),
        if_pos rfl] at hkd
      obtain ⟨h1, h2⟩ :=
        buildLoop_comprehension kelvin_to_fahrenheit hp r hrp hnp hkd
      rw [kelvin_dict_to_impl, if_neg (by decide), if_neg (by decide),
        if_pos rfl]
      exact ⟨(Heap.alloc hp).2, h1, h2⟩

/-- Witness for C8 on two one-dict stores: the conversions leave the input
dicts untouched. -/
theorem conversion_functions_pure_witness :
    (metric_wind_dict_to_imperial_impl
        ⟨[[("speed", (1 : ℚ)), ("deg", 10)]]⟩ 0).1.get 0 =
      Heap.get ⟨[[("speed", (1 : ℚ)), ("deg", 10)]]⟩ 0 ∧
    (metric_pressure_dict_to_inhg_impl
        ⟨[[("press", some (1013.25 : ℚ)), ("sea_level", none)]]⟩ 0).1.get 0 =
      Heap.get ⟨[[("press", some (1013.25 : ℚ)), ("sea_level", none)]]⟩ 0 := by
  have h := conversion_functions_pure
    ⟨[[("speed", (1 : ℚ)), ("deg", 10)]]⟩
    ⟨[[("press", some (1013.25 : ℚ)), ("sea_level", none)]]⟩ 0
    (by decide) (by decide) (by decide) (by decide)
  exact ⟨h.1.1, h.2.2.2.2.1.1⟩

end Measurables
